import Mathlib

/-!
Verification of the izzymonitor firmware core (somethingbeautiful repository):
shallow embedding of the UI-state singleton, the display render loop tick,
the button debounce state machine, the shared button-state table, and the
WS2812B color pulse encoders, with theorems checking the specification's
claims against the code.
-/

set_option maxHeartbeats 1000000

namespace IzzyMonitor

/-! ## UI state and display render loop
   (src/bin/display.rs, src/bin/async_main.rs) -/

inductive Menu
  | Main
  | Trip
  | Settings
  deriving DecidableEq, Repr

structure UIState where
  currentMenu : Menu
  activeButton : Nat
  userName : String
  wifiConnected : Bool
  deriving DecidableEq, Repr

/-- `init_ui_state` (display.rs lines 268-278): default UI state. -/
def init_ui_state : UIState :=
  { currentMenu := Menu.Main
    activeButton := 0
    userName := "Guest"
    wifiConnected := false }

/-- `get_ui_state` (async_main.rs lines 31-38): the `static mut UI_STATE :
Option<UIState>` cell is passed explicitly; the function returns the value
handed out together with the new cell contents. On `none` it initializes the
cell with `init_ui_state`; otherwise it returns the stored value unchanged. -/
def get_ui_state : Option UIState → UIState × Option UIState
  | none => (init_ui_state, some init_ui_state)
  | some s => (s, some s)

/-- The `update_display` loop's local tracking variables
(async_main.rs lines 118-119). -/
structure DisplayTracking where
  currentMenu : Menu
  lastActiveButton : Nat
  deriving DecidableEq, Repr

/-- Initial tracking values (async_main.rs lines 118-119): `last_active_button`
starts at the invalid value 99 to force a first update. -/
def update_display_init : DisplayTracking :=
  { currentMenu := Menu.Main, lastActiveButton := 99 }

/-- Outcome of a fallible call into the external display-drawing collaborator. -/
inductive DrawResult
  | ok
  | err (msg : String)
  deriving DecidableEq, Repr

/-- One iteration of the `update_display` loop body (async_main.rs lines
121-155). The three per-menu draw routines are passed as parameters (they call
into the external display collaborator); a draw error is only logged
(async_main.rs lines 132-144), so the draw outcome does not influence the rest
of the tick. Returns the new tracking variables and whether a draw was
dispatched. The tracking update (lines 148-150) runs unconditionally inside
the mismatch branch. -/
def update_display_tick (track : DisplayTracking) (ui : UIState)
    (drawMain drawTrip drawSettings : UIState → DrawResult) :
    DisplayTracking × Bool :=
  if ui.currentMenu ≠ track.currentMenu ∨ ui.activeButton ≠ track.lastActiveButton then
    let _logged : DrawResult :=
      match ui.currentMenu with
      | Menu.Main => drawMain ui
      | Menu.Trip => drawTrip ui
      | Menu.Settings => drawSettings ui
    ({ currentMenu := ui.currentMenu, lastActiveButton := ui.activeButton }, true)
  else
    (track, false)

/-- A draw routine that always fails, standing in for a display whose I/O
keeps failing. -/
def drawAlwaysFails : UIState → DrawResult :=
  fun _ => DrawResult.err "draw error"

/-! ## Button debounce engine (src/bin/buttons.rs) -/

inductive ButtonAction
  | Press
  | Release
  | LongPress
  | None
  deriving DecidableEq, Repr

inductive ButtonState
  | Idle
  | Pressed
  | LongPressed
  deriving DecidableEq, Repr

structure Button where
  state : ButtonState
  last_action : ButtonAction
  id : Nat
  name : String
  deriving DecidableEq, Repr

/-- `Button::new` (buttons.rs lines 30-37). -/
def Button.new (id : Nat) (name : String) : Button :=
  { state := ButtonState.Idle
    last_action := ButtonAction.None
    id := id
    name := name }

/-- `Button::update_state` (buttons.rs lines 39-57): returns the action and
the mutated button. -/
def Button.update_state (b : Button) (is_low : Bool) : ButtonAction × Button :=
  let r : ButtonAction × ButtonState :=
    match b.state, is_low with
    | ButtonState.Idle, true => (ButtonAction.Press, ButtonState.Pressed)
    | ButtonState.Pressed, false => (ButtonAction.Release, ButtonState.Idle)
    | ButtonState.LongPressed, false => (ButtonAction.Release, ButtonState.Idle)
    | s, _ => (ButtonAction.None, s)
  (r.1, { b with state := r.2, last_action := r.1 })

/-- `Button::process_long_press` (buttons.rs lines 59-66); the `duration_ms`
argument is unused by the source as well. -/
def Button.process_long_press (b : Button) (duration_ms : Nat) : ButtonAction × Button :=
  if b.state = ButtonState.Pressed then
    (ButtonAction.LongPress,
     { b with state := ButtonState.LongPressed, last_action := ButtonAction.LongPress })
  else
    (ButtonAction.None, b)

/-- The raw pin observations one iteration of `watch_button`'s pressed loop
makes (buttons.rs lines 93-111): the `pin.is_high()` sample at the top, the
re-sample after the release-debounce delay, and whether the long-press timer
has expired at this iteration. -/
structure PollObs where
  pin_high : Bool
  pin_high_after_debounce : Bool
  timer_expired : Bool
  deriving DecidableEq, Repr

/-- One iteration of the pressed loop in `watch_button` (buttons.rs lines
93-111): the release check runs first; only in its `else` branch is the
long-press timer consulted. `some a` means the loop returned with action `a`;
`none` means it fell through to the next iteration. -/
def poll_step (b : Button) (o : PollObs) (long_press_ms : Nat) :
    Option ButtonAction × Button :=
  if o.pin_high then
    if o.pin_high_after_debounce then
      let r := b.update_state false
      (some r.1, r.2)
    else
      (none, b)
  else if o.timer_expired then
    let r := b.process_long_press long_press_ms
    (some r.1, r.2)
  else
    (none, b)

/-- The pressed loop of `watch_button`, run over a finite list of
observations; `none` means the observations ran out with the loop still
spinning. -/
def pressed_loop (b : Button) (long_press_ms : Nat) :
    List PollObs → Option (ButtonAction × Button)
  | [] => none
  | o :: rest =>
    match poll_step b o long_press_ms with
    | (some a, b2) => some (a, b2)
    | (none, b2) => pressed_loop b2 long_press_ms rest

/-- `watch_button` (buttons.rs lines 70-116) after the falling edge:
`pin_low_after_debounce` is the `pin.is_low()` sample taken once the 50 ms
debounce delay has elapsed (line 85). If it is false the bounce is swallowed:
the function returns `ButtonAction::None` without touching the button
(line 115). Otherwise the press is registered and the pressed loop runs. -/
def watch_button (pin_low_after_debounce : Bool) (obs : List PollObs)
    (b : Button) (long_press_ms : Nat) : Option (ButtonAction × Button) :=
  if pin_low_after_debounce then
    let r := b.update_state true
    pressed_loop r.2 long_press_ms obs
  else
    some (ButtonAction.None, b)

/-- A call into the `Button` state machine, for stating trace invariants. -/
inductive BCall
  | update (is_low : Bool)
  | long_press (duration_ms : Nat)
  deriving DecidableEq, Repr

def step_call (b : Button) : BCall → ButtonAction × Button
  | BCall.update l => b.update_state l
  | BCall.long_press d => b.process_long_press d

/-- One observed step of a call sequence: the state before, the action
returned, the state after. -/
structure TraceEntry where
  pre : ButtonState
  action : ButtonAction
  post : ButtonState
  deriving DecidableEq, Repr

/-- Run a sequence of `update_state` / `process_long_press` calls, recording
each step's pre-state, action and post-state. -/
def run_calls (b : Button) : List BCall → List TraceEntry
  | [] => []
  | c :: cs =>
    { pre := b.state, action := (step_call b c).1, post := (step_call b c).2.state }
      :: run_calls (step_call b c).2 cs

/-! ## Shared button states (src/buttons.rs) -/

namespace Shared

/-- 2-state-with-Release variant of the button state (src/buttons.rs
lines 15-20). -/
inductive ButtonState
  | Idle
  | Pressed
  | Released
  deriving DecidableEq, Repr

/-- Loop body of `get_active_button` (src/buttons.rs lines 114-121), with the
running `enumerate` index made explicit. -/
def get_active_button_aux : List ButtonState → Nat → Option Nat
  | [], _ => none
  | s :: rest, idx =>
    if s = ButtonState.Pressed then some idx
    else get_active_button_aux rest (idx + 1)

/-- `get_active_button` (src/buttons.rs lines 114-121): first index of
`BUTTON_STATES` whose state is `Pressed`. -/
def get_active_button (states : List ButtonState) : Option Nat :=
  get_active_button_aux states 0

end Shared

/-! ## Color pulse encoder, backup firmware variant
   (izzymonitor-firmwareWorkingBak/src/leds.rs) -/

/-- `RgbColor` (Bak leds.rs lines 14-19). Channel bytes are 0-255; modelled
as `Nat` (bit extraction below only ever looks at the low 8 bits). -/
structure RgbColor where
  r : Nat
  g : Nat
  b : Nat
  deriving DecidableEq, Repr

/-- `PulseCode::new(level, duration)`: one timed high/low pulse. -/
structure PulseCode where
  level : Bool
  duration : Nat
  deriving DecidableEq, Repr

/-- A (high, low) bit-timing table: durations in nanoseconds for a 1 bit and
a 0 bit. -/
structure Timing where
  t1h : Nat
  t1l : Nat
  t0h : Nat
  t0l : Nat
  deriving DecidableEq, Repr

/-- Timing constants of the backup firmware (Bak leds.rs lines 60-64). -/
def bakTiming : Timing := { t1h := 800, t1l := 450, t0h := 400, t0l := 850 }

/-- Timing constants of `led_task` (async_main.rs lines 180-183). -/
def asyncTiming : Timing := { t1h := 900, t1l := 350, t0h := 350, t0l := 900 }

/-- `RESET` (Bak leds.rs line 65): reset pulse duration in nanoseconds. -/
def RESET : Nat := 50000

/-- The two pulse codes one bit contributes (Bak leds.rs lines 112-124):
high for the bit's high time, then low for its low time. -/
def bit_pulses (t : Timing) (bit : Nat) : List PulseCode :=
  if bit = 1 then
    [{ level := true, duration := t.t1h }, { level := false, duration := t.t1l }]
  else
    [{ level := true, duration := t.t0h }, { level := false, duration := t.t0l }]

/-- The pulse codes of one channel byte (Bak leds.rs lines 108-125): MSB
first, `for j in (0..8).rev() { bit = (byte >> j) & 1; ... }`, re-indexed by
`k = 7 - j` so the list is in emission order. -/
def byte_pulses (t : Timing) (byte : Nat) : List PulseCode :=
  (List.range 8).flatMap (fun k => bit_pulses t ((byte >>> (7 - k)) % 2))

/-- The pulse codes of one LED color (Bak leds.rs lines 103-126): channel
bytes in G, R, B order. -/
def color_pulses (t : Timing) (c : RgbColor) : List PulseCode :=
  [c.g, c.r, c.b].flatMap (byte_pulses t)

/-- `LedController::show` (Bak leds.rs lines 92-139) as the pulse-code buffer
it transmits: the first `min(colors.len(), led_count)` colors encoded in
order, then the single reset code `PulseCode::new(false, RESET)`
(line 130). -/
def show_pulses (colors : List RgbColor) (led_count : Nat) : List PulseCode :=
  ((colors.take led_count).flatMap (color_pulses bakTiming))
    ++ [{ level := false, duration := RESET }]

/-- The same buffer viewed at entry granularity: each bit is one
(high, low) pulse-pair entry, the trailing reset one single-pulse entry. -/
inductive Entry
  | bitPair (hi lo : PulseCode)
  | reset (p : PulseCode)
  deriving DecidableEq, Repr

def Entry.isBitPair : Entry → Bool
  | Entry.bitPair _ _ => true
  | Entry.reset _ => false

def bit_entry (t : Timing) (bit : Nat) : Entry :=
  if bit = 1 then
    Entry.bitPair { level := true, duration := t.t1h } { level := false, duration := t.t1l }
  else
    Entry.bitPair { level := true, duration := t.t0h } { level := false, duration := t.t0l }

def byte_entries (t : Timing) (byte : Nat) : List Entry :=
  (List.range 8).map (fun k => bit_entry t ((byte >>> (7 - k)) % 2))

def color_entries (t : Timing) (c : RgbColor) : List Entry :=
  [c.g, c.r, c.b].flatMap (byte_entries t)

def show_entries (colors : List RgbColor) (led_count : Nat) : List Entry :=
  ((colors.take led_count).flatMap (color_entries bakTiming))
    ++ [Entry.reset { level := false, duration := RESET }]

/-- Flatten an entry back into the raw pulse codes the source writes. -/
def entry_pulses : Entry → List PulseCode
  | Entry.bitPair hi lo => [hi, lo]
  | Entry.reset p => [p]

/-! ## LED strip (src/bin/leds.rs) and the gamma/brightness pipeline -/

/-- `NUM_LEDS` (leds.rs line 15). -/
def NUM_LEDS : Nat := 6

/-- `RGB8` color triple of the `smart_leds` crate, as used by
`LedStrip::data`. -/
structure RGB8 where
  r : Nat
  g : Nat
  b : Nat
  deriving DecidableEq, Repr

/-- The state of `LedStrip` (leds.rs lines 17-21) that the data-model claims
are about: the stored colors and the brightness field (the RMT adapter handle
is external hardware). -/
structure LedStrip where
  data : List RGB8
  brightness : Nat
  deriving DecidableEq, Repr

/-- `LedStrip::new` (leds.rs lines 25-40): colors all zero, brightness 50. -/
def LedStrip.init : LedStrip :=
  { data := List.replicate NUM_LEDS { r := 0, g := 0, b := 0 }
    brightness := 50 }

/-- The result of `LedStrip::update` (leds.rs lines 76-81): it does not touch
`data`; it maps the outcome of the external adapter write (passed in as
`write_ok`) to `Ok(())` or the error string. -/
def LedStrip.update_result (write_ok : Bool) : Except String Unit :=
  if write_ok then Except.ok () else Except.error "Failed to write to LED strip"

/-- `LedStrip::set_led` (leds.rs lines 52-59): bounds check against
`NUM_LEDS`, then in-place update of `data[index]` followed by `self.update()`.
Returns the `Result` together with the strip state after the call. -/
def LedStrip.set_led (strip : LedStrip) (index red green blue : Nat)
    (write_ok : Bool) : Except String Unit × LedStrip :=
  if index ≥ NUM_LEDS then
    (Except.error "LED index out of bounds", strip)
  else
    let strip2 := { strip with data := strip.data.set index { r := red, g := green, b := blue } }
    (LedStrip.update_result write_ok, strip2)

/-- Modelled from the spec: the global brightness scale (0-255) "applied
multiplicatively" to a channel byte (the `smart_leds::brightness` adapter is
an external crate, not under src/). -/
def brightness_apply (scale x : Nat) : Nat := x * scale / 255

/-- Apply a gamma lookup `g` to all three channels of a color. The gamma
table itself is the external `smart_leds::gamma` lookup (not under src/), so
it is kept as a parameter. -/
def gamma_map (g : Nat → Nat) (p : RGB8) : RGB8 :=
  { r := g p.r, g := g p.g, b := g p.b }

/-- Apply the brightness scale to all three channels of a color. -/
def brightness_map (scale : Nat) (p : RGB8) : RGB8 :=
  { r := brightness_apply scale p.r
    g := brightness_apply scale p.g
    b := brightness_apply scale p.b }

/-- The color stream `LedStrip::update` hands to the adapter (leds.rs
line 77): `brightness(gamma(self.data.iter().cloned()), self.brightness)` —
gamma first, then the brightness scale, pixel by pixel. -/
def LedStrip.written (g : Nat → Nat) (strip : LedStrip) : List RGB8 :=
  strip.data.map (fun p => brightness_map strip.brightness (gamma_map g p))

/-- Modelled from the spec: the GRB channel-byte order of the WS2812B chain
("channel order is transmitted Green, Red, Blue"); the byte flattening inside
the external `esp_hal_smartled` adapter is not under src/. -/
def grb_bytes (p : RGB8) : List Nat := [p.g, p.r, p.b]

/-- Bit-split a stream of channel bytes into pulse-pair entries, MSB first. -/
def split_bytes (t : Timing) (bytes : List Nat) : List Entry :=
  bytes.flatMap (byte_entries t)

/-- The `bytes` array built per pixel in `led_task` (async_main.rs lines
204-208): gamma of each channel, in G, R, B order — no brightness scaling
appears. -/
def led_task_bytes (g : Nat → Nat) (p : RGB8) : List Nat :=
  [g p.g, g p.r, g p.b]

/-- The pulse-pair buffer `led_task` fills (async_main.rs lines 200-232):
for each pixel in order, each of its three gamma-corrected bytes is split
MSB-first into one `PulsePair` per bit with the 900/350 ns timing; the buffer
index `i * 24 + j * 8 + k` is exactly this sequential order. -/
def led_task_pairs (g : Nat → Nat) (pixels : List RGB8) : List Entry :=
  pixels.flatMap (fun p => (led_task_bytes g p).flatMap (byte_entries asyncTiming))

/-! ## Theorems -/

/-- C8: the first call to `get_ui_state` constructs the singleton with its
default values — `current_menu = Main`, `active_button = 0`,
`user_name = "Guest"`, `wifi_connected = false` — and every later call
returns the stored instance unchanged, without re-initializing it. -/
theorem get_ui_state_singleton :
    get_ui_state none = (init_ui_state, some init_ui_state)
    ∧ init_ui_state =
        { currentMenu := Menu.Main, activeButton := 0,
          userName := "Guest", wifiConnected := false }
    ∧ ∀ s : UIState, get_ui_state (some s) = (s, some s) :=
  ⟨rfl, rfl, fun _ => rfl⟩

/-- C1 counterexample: on a tick where the `(menu, active_button)` pair
mismatches and the dispatched draw routine fails, `update_display` still
updates its tracking variables to the live pair (they are not left
unchanged), and the immediately following tick with the same UI state
dispatches no draw (the failed draw is not retried). Concrete input: initial
tracking (Main, 99), UI state (Main, 0), every draw failing. -/
theorem update_display_error_tick_counterexample :
    update_display_tick update_display_init
        { currentMenu := Menu.Main, activeButton := 0,
          userName := "Guest", wifiConnected := false }
        drawAlwaysFails drawAlwaysFails drawAlwaysFails
      = ({ currentMenu := Menu.Main, lastActiveButton := 0 }, true)
    ∧ ({ currentMenu := Menu.Main, lastActiveButton := 0 } : DisplayTracking)
        ≠ update_display_init
    ∧ update_display_tick { currentMenu := Menu.Main, lastActiveButton := 0 }
        { currentMenu := Menu.Main, activeButton := 0,
          userName := "Guest", wifiConnected := false }
        drawAlwaysFails drawAlwaysFails drawAlwaysFails
      = ({ currentMenu := Menu.Main, lastActiveButton := 0 }, false) := by
  refine ⟨rfl, ?_, rfl⟩
  decide

/-- C1 amended: on every mismatching tick the draw is dispatched and the
loop continues (the tick returns) whatever the draw routines return — a draw
error is only logged — but the tracking variables are updated to the live
`(menu, active_button)` pair even when the draw failed, so an immediately
following tick with the unchanged pair dispatches no draw: the failed draw is
not retried until the pair changes again. -/
theorem update_display_error_tick (track : DisplayTracking) (ui : UIState)
    (dMain dTrip dSettings : UIState → DrawResult)
    (h : ui.currentMenu ≠ track.currentMenu ∨ ui.activeButton ≠ track.lastActiveButton) :
    update_display_tick track ui dMain dTrip dSettings
      = ({ currentMenu := ui.currentMenu, lastActiveButton := ui.activeButton }, true)
    ∧ update_display_tick
        { currentMenu := ui.currentMenu, lastActiveButton := ui.activeButton }
        ui dMain dTrip dSettings
      = ({ currentMenu := ui.currentMenu, lastActiveButton := ui.activeButton }, false) := by
  constructor
  · unfold update_display_tick
    rw [if_pos h]
  · unfold update_display_tick
    rw [if_neg]
    simp

theorem update_display_error_tick_witness :
    update_display_tick update_display_init
        { currentMenu := Menu.Trip, activeButton := 1,
          userName := "Guest", wifiConnected := false }
        drawAlwaysFails drawAlwaysFails drawAlwaysFails
      = ({ currentMenu := Menu.Trip, lastActiveButton := 1 }, true)
    ∧ update_display_tick { currentMenu := Menu.Trip, lastActiveButton := 1 }
        { currentMenu := Menu.Trip, activeButton := 1,
          userName := "Guest", wifiConnected := false }
        drawAlwaysFails drawAlwaysFails drawAlwaysFails
      = ({ currentMenu := Menu.Trip, lastActiveButton := 1 }, false) :=
  update_display_error_tick update_display_init
    { currentMenu := Menu.Trip, activeButton := 1,
      userName := "Guest", wifiConnected := false }
    drawAlwaysFails drawAlwaysFails drawAlwaysFails (Or.inl (by decide))

/-- C5: a bounce that does not survive the debounce interval — the pin is no
longer low when the 50 ms debounce delay after the falling edge elapses — is
swallowed by `watch_button`: for every subsequent observation sequence it
produces `ButtonAction.None` (so neither Press nor Release) and leaves the
button, in particular its `ButtonState`, unchanged. -/
theorem watch_button_short_bounce_swallowed (obs : List PollObs) (b : Button)
    (long_press_ms : Nat) :
    watch_button false obs b long_press_ms = some (ButtonAction.None, b) := by
  rfl

/-- C4: in one iteration of `watch_button`'s pressed loop, the
release-confirmation check is evaluated before the long-press timer check:
when the pin reads high in an iteration in which the long-press timer has
expired, the returned event is never LongPress, and — once the release
debounce confirms the high level, from the loop's reachable states Pressed or
LongPressed — it is exactly Release. -/
theorem poll_step_release_beats_long_press (b : Button) (o : PollObs)
    (long_press_ms : Nat) (h1 : o.pin_high = true) (h2 : o.timer_expired = true) :
    (poll_step b o long_press_ms).1 ≠ some ButtonAction.LongPress
    ∧ (o.pin_high_after_debounce = true →
        (b.state = ButtonState.Pressed ∨ b.state = ButtonState.LongPressed) →
        (poll_step b o long_press_ms).1 = some ButtonAction.Release) := by
  cases hpd : o.pin_high_after_debounce <;>
    cases hs : b.state <;>
      simp [poll_step, h1, hpd, Button.update_state, hs]

theorem poll_step_release_beats_long_press_witness :
    (poll_step { state := ButtonState.Pressed, last_action := ButtonAction.Press,
                 id := 0, name := "key 1" }
        { pin_high := true, pin_high_after_debounce := true, timer_expired := true }
        2000).1 ≠ some ButtonAction.LongPress
    ∧ (poll_step { state := ButtonState.Pressed, last_action := ButtonAction.Press,
                   id := 0, name := "key 1" }
        { pin_high := true, pin_high_after_debounce := true, timer_expired := true }
        2000).1 = some ButtonAction.Release := by
  have h := poll_step_release_beats_long_press
    { state := ButtonState.Pressed, last_action := ButtonAction.Press,
      id := 0, name := "key 1" }
    { pin_high := true, pin_high_after_debounce := true, timer_expired := true }
    2000 rfl rfl
  exact ⟨h.1, h.2 rfl (Or.inl rfl)⟩

/-- C6 counterexample: the claim's final clause — "from any other state these
calls leave the state unchanged and emit no event" — fails on the code: from
`Idle` (a state other than Pressed or LongPressed), `update_state(true)`
emits `Press` and moves the state to `Pressed`. Concrete input: a fresh
button and the single call `update_state(true)`. -/
theorem button_calls_counterexample :
    run_calls (Button.new 0 "key 1") [BCall.update true]
      = [{ pre := ButtonState.Idle, action := ButtonAction.Press,
           post := ButtonState.Pressed }]
    ∧ ButtonState.Idle ≠ ButtonState.Pressed
    ∧ ButtonState.Idle ≠ ButtonState.LongPressed
    ∧ ButtonAction.Press ≠ ButtonAction.None
    ∧ ButtonState.Pressed ≠ ButtonState.Idle := by
  refine ⟨rfl, ?_, ?_, ?_, ?_⟩ <;> decide

/-- C6 amended: in every sequence of `update_state` / `process_long_press`
calls (in particular starting from Idle), every step that transitions into
`LongPressed` starts from `Pressed`; every step that emits `Release` starts
from `Pressed` or `LongPressed`; every step that emits `LongPress` starts
from `Pressed`; and a step starting from any other state (i.e. Idle) emits
neither Release nor LongPress: it either is the Idle→Pressed `Press`
transition, or it leaves the state unchanged and emits no event. -/
theorem button_calls_invariants (b : Button) (calls : List BCall)
    (e : TraceEntry) (he : e ∈ run_calls b calls) :
    (e.post = ButtonState.LongPressed → e.pre ≠ ButtonState.LongPressed →
      e.pre = ButtonState.Pressed)
    ∧ (e.action = ButtonAction.Release →
        e.pre = ButtonState.Pressed ∨ e.pre = ButtonState.LongPressed)
    ∧ (e.action = ButtonAction.LongPress → e.pre = ButtonState.Pressed)
    ∧ (e.pre ≠ ButtonState.Pressed → e.pre ≠ ButtonState.LongPressed →
        (e.action = ButtonAction.Press ∧ e.pre = ButtonState.Idle
          ∧ e.post = ButtonState.Pressed)
        ∨ (e.action = ButtonAction.None ∧ e.post = e.pre)) := by
  induction calls generalizing b with
  | nil => simp [run_calls] at he
  | cons c cs ih =>
    rw [run_calls] at he
    rcases List.mem_cons.mp he with h | h
    · subst h
      cases c with
      | update l =>
        cases hs : b.state <;> cases l <;>
          simp [step_call, Button.update_state, hs]
      | long_press d =>
        cases hs : b.state <;>
          simp [step_call, Button.process_long_press, hs]
    · exact ih _ h

theorem button_calls_invariants_witness :
    ({ pre := ButtonState.Pressed, action := ButtonAction.LongPress,
       post := ButtonState.LongPressed } : TraceEntry)
      ∈ run_calls (Button.new 0 "key 1") [BCall.update true, BCall.long_press 2000]
    ∧ (ButtonAction.LongPress = ButtonAction.LongPress →
        ButtonState.Pressed = ButtonState.Pressed) :=
  ⟨by decide,
   (button_calls_invariants (Button.new 0 "key 1")
      [BCall.update true, BCall.long_press 2000]
      { pre := ButtonState.Pressed, action := ButtonAction.LongPress,
        post := ButtonState.LongPressed }
      (by decide)).2.2.1⟩

/-- C10 helper: soundness of the `get_active_button` scan, stated for the
auxiliary loop with an arbitrary running index. -/
theorem get_active_button_aux_some (l : List Shared.ButtonState) :
    ∀ base i, Shared.get_active_button_aux l base = some i →
      base ≤ i ∧ l.get? (i - base) = some Shared.ButtonState.Pressed
        ∧ ∀ j, j < i - base → l.get? j ≠ some Shared.ButtonState.Pressed := by
  induction l with
  | nil => intro base i h; simp [Shared.get_active_button_aux] at h
  | cons s rest ih =>
    intro base i h
    rw [Shared.get_active_button_aux] at h
    by_cases hp : s = Shared.ButtonState.Pressed
    · rw [if_pos hp] at h
      obtain rfl : base = i := Option.some.inj h
      refine ⟨Nat.le_refl _, ?_, ?_⟩
      · simp [Nat.sub_self, hp]
      · intro j hj
        omega
    · rw [if_neg hp] at h
      obtain ⟨hle, hget, hmin⟩ := ih (base + 1) i h
      have hbase : base ≤ i := Nat.le_of_succ_le hle
      refine ⟨hbase, ?_, ?_⟩
      · have : i - base = (i - (base + 1)) + 1 := by omega
        rw [this]
        simpa using hget
      · intro j hj
        cases j with
        | zero =>
          simp only [List.get?]
          intro hcontra
          exact hp (Option.some.inj hcontra)
        | succ j' =>
          have hj' : j' < i - (base + 1) := by omega
          simpa using hmin j' hj'

/-- C10 helper: completeness of the `get_active_button` scan. -/
theorem get_active_button_aux_none (l : List Shared.ButtonState) :
    ∀ base, Shared.get_active_button_aux l base = none ↔
      ∀ j, l.get? j ≠ some Shared.ButtonState.Pressed := by
  induction l with
  | nil =>
    intro base
    simp [Shared.get_active_button_aux]
  | cons s rest ih =>
    intro base
    rw [Shared.get_active_button_aux]
    by_cases hp : s = Shared.ButtonState.Pressed
    · rw [if_pos hp]
      constructor
      · intro h; exact absurd h (by simp)
      · intro h
        exact absurd (by simp [hp] : (s :: rest).get? 0 = some Shared.ButtonState.Pressed) (h 0)
    · rw [if_neg hp]
      rw [ih (base + 1)]
      constructor
      · intro h j
        cases j with
        | zero =>
          simp only [List.get?]
          intro hcontra
          exact hp (Option.some.inj hcontra)
        | succ j' => simpa using h j'
      · intro h j
        simpa using h (j + 1)

/-- C10: for every configuration of the six shared button states,
`get_active_button` returns `some i` only for the smallest index whose state
is `Pressed` (and such an `i` is always below 6), and returns `none` exactly
when no entry is `Pressed`. -/
theorem get_active_button_spec (states : List Shared.ButtonState)
    (h6 : states.length = 6) :
    (∀ i, Shared.get_active_button states = some i →
        i < 6 ∧ states.get? i = some Shared.ButtonState.Pressed
          ∧ ∀ j, j < i → states.get? j ≠ some Shared.ButtonState.Pressed)
    ∧ (Shared.get_active_button states = none ↔
        ∀ j, states.get? j ≠ some Shared.ButtonState.Pressed) := by
  constructor
  · intro i h
    obtain ⟨_, hget, hmin⟩ := get_active_button_aux_some states 0 i h
    rw [Nat.sub_zero] at hget
    have hlt : i < states.length := by
      by_contra hcontra
      rw [List.get?_eq_none.mpr (Nat.le_of_not_lt hcontra)] at hget
      exact Option.noConfusion hget
    refine ⟨h6 ▸ hlt, hget, ?_⟩
    intro j hj
    have := hmin j (by omega)
    exact this
  · exact get_active_button_aux_none states 0

theorem get_active_button_spec_witness :
    (2 : Nat) < 6
    ∧ [Shared.ButtonState.Idle, Shared.ButtonState.Released,
       Shared.ButtonState.Pressed, Shared.ButtonState.Idle,
       Shared.ButtonState.Pressed, Shared.ButtonState.Idle].get? 2
        = some Shared.ButtonState.Pressed := by
  have h := (get_active_button_spec
    [Shared.ButtonState.Idle, Shared.ButtonState.Released,
     Shared.ButtonState.Pressed, Shared.ButtonState.Idle,
     Shared.ButtonState.Pressed, Shared.ButtonState.Idle] rfl).1 2 (by decide)
  exact ⟨h.1, h.2.1⟩

/-- C9 counterexample: `set_led` does not return an error *exactly* when
`index ≥ NUM_LEDS`: for the in-range index 0 it still returns an error when
the underlying `update()` adapter write fails (leds.rs lines 58, 76-81). -/
theorem set_led_error_counterexample :
    (LedStrip.set_led LedStrip.init 0 255 0 0 false).1
      = Except.error "Failed to write to LED strip"
    ∧ (0 : Nat) < NUM_LEDS := by
  refine ⟨rfl, ?_⟩
  decide

/-- C9 amended: `set_led` returns the out-of-bounds error exactly when
`index ≥ NUM_LEDS` (6), leaving the stored data unchanged; for `index <
NUM_LEDS` it modifies exactly the entry at `index` (every other entry and the
brightness are unchanged) and the result is `Ok` precisely when the
underlying adapter write succeeds — on a write failure it returns an error
with the entry already modified. -/
theorem set_led_spec (strip : LedStrip) (index red green blue : Nat)
    (write_ok : Bool) (hlen : strip.data.length = NUM_LEDS) :
    (NUM_LEDS ≤ index →
        LedStrip.set_led strip index red green blue write_ok
          = (Except.error "LED index out of bounds", strip))
    ∧ (index < NUM_LEDS →
        ((LedStrip.set_led strip index red green blue write_ok).2.data.get? index
            = some { r := red, g := green, b := blue }
        ∧ (∀ j, j ≠ index →
            (LedStrip.set_led strip index red green blue write_ok).2.data.get? j
              = strip.data.get? j)
        ∧ (LedStrip.set_led strip index red green blue write_ok).2.brightness
            = strip.brightness
        ∧ ((LedStrip.set_led strip index red green blue write_ok).1 = Except.ok ()
            ↔ write_ok = true))) := by
  constructor
  · intro h
    unfold LedStrip.set_led
    rw [if_pos h]
  · intro h
    have hnot : ¬ NUM_LEDS ≤ index := Nat.not_le.mpr h
    have hidx : index < strip.data.length := by omega
    have key : LedStrip.set_led strip index red green blue write_ok
        = (LedStrip.update_result write_ok,
           { strip with data := strip.data.set index { r := red, g := green, b := blue } }) := by
      unfold LedStrip.set_led
      rw [if_neg hnot]
    rw [key]
    refine ⟨?_, ?_, rfl, ?_⟩
    · rw [List.get?_eq_getElem?]
      exact List.getElem?_set_eq_of_lt _ hidx
    · intro j hj
      rw [List.get?_set_of_lt' _ _ hidx]
      rw [if_neg (fun hc => hj hc.symm)]
    · unfold LedStrip.update_result
      cases write_ok <;> simp

theorem set_led_spec_witness :
    (LedStrip.set_led LedStrip.init 2 9 8 7 true).2.data.get? 2
      = some { r := 9, g := 8, b := 7 }
    ∧ (LedStrip.set_led LedStrip.init 2 9 8 7 true).2.data.get? 0
      = LedStrip.init.data.get? 0
    ∧ (LedStrip.set_led LedStrip.init 2 9 8 7 true).1 = Except.ok () := by
  have h := (set_led_spec LedStrip.init 2 9 8 7 true rfl).2 (by decide)
  exact ⟨h.1, h.2.1 0 (by decide), h.2.2.2.mpr rfl⟩

/-! ### Pulse encoder helper lemmas -/

theorem entry_pulses_bit_entry (t : Timing) (bv : Nat) :
    entry_pulses (bit_entry t bv) = bit_pulses t bv := by
  unfold bit_entry bit_pulses
  by_cases h : bv = 1 <;> simp [h, entry_pulses]

theorem byte_entries_flat (t : Timing) (byte : Nat) :
    (byte_entries t byte).flatMap entry_pulses = byte_pulses t byte := by
  unfold byte_entries byte_pulses
  rw [List.flatMap_map]
  exact List.flatMap_congr (fun k _ => entry_pulses_bit_entry t _)

theorem color_entries_flat (t : Timing) (c : RgbColor) :
    (color_entries t c).flatMap entry_pulses = color_pulses t c := by
  unfold color_entries color_pulses
  rw [List.flatMap_assoc]
  exact List.flatMap_congr (fun b _ => byte_entries_flat t b)

theorem byte_entries_length (t : Timing) (byte : Nat) :
    (byte_entries t byte).length = 8 := by
  simp [byte_entries]

theorem color_entries_length (t : Timing) (c : RgbColor) :
    (color_entries t c).length = 24 := by
  simp [color_entries, byte_entries]

theorem flatMap_color_entries_length (t : Timing) (cs : List RgbColor) :
    (cs.flatMap (color_entries t)).length = 24 * cs.length := by
  induction cs with
  | nil => simp
  | cons c rest ih =>
    simp only [List.flatMap_cons, List.length_append, List.length_cons, ih,
      color_entries_length]
    ring

theorem bit_entry_isBitPair (t : Timing) (bv : Nat) :
    (bit_entry t bv).isBitPair = true := by
  unfold bit_entry
  by_cases h : bv = 1 <;> simp [h, Entry.isBitPair]

theorem color_entries_isBitPair (t : Timing) (c : RgbColor) :
    ∀ e ∈ color_entries t c, e.isBitPair = true := by
  intro e he
  rcases List.mem_flatMap.mp he with ⟨byte, _, hb⟩
  rcases List.mem_map.mp hb with ⟨k, _, hk⟩
  rw [← hk]
  exact bit_entry_isBitPair t _

/-- C2: for every frame whose colors all fit the controller
(`colors.length ≤ led_count`), the buffer `LedController::show` transmits
consists of exactly `24 * N` bit pulse-pair entries followed by one trailing
reset entry — `24 * N + 1` entries in total — and the reset pulse is low with
duration `RESET = 50000 ns ≥ 50 µs`; the raw pulse-code buffer of the source
is exactly the flattening of these entries. -/
theorem show_frame_structure (colors : List RgbColor) (led_count : Nat)
    (h : colors.length ≤ led_count) :
    (show_entries colors led_count).length = 24 * colors.length + 1
    ∧ (show_entries colors led_count).getLast?
        = some (Entry.reset { level := false, duration := RESET })
    ∧ (show_entries colors led_count).dropLast.length = 24 * colors.length
    ∧ (∀ e ∈ (show_entries colors led_count).dropLast, e.isBitPair = true)
    ∧ 50 * 1000 ≤ RESET
    ∧ show_pulses colors led_count = (show_entries colors led_count).flatMap entry_pulses := by
  have htake : colors.take led_count = colors := List.take_of_length_le h
  unfold show_entries show_pulses
  rw [htake]
  refine ⟨?_, List.getLast?_concat _, ?_, ?_, by decide, ?_⟩
  · rw [List.length_append, flatMap_color_entries_length]
    simp
  · rw [List.dropLast_concat, flatMap_color_entries_length]
  · rw [List.dropLast_concat]
    intro e he
    rcases List.mem_flatMap.mp he with ⟨c, _, hc⟩
    exact color_entries_isBitPair bakTiming c e hc
  · rw [List.flatMap_append, List.flatMap_assoc]
    rw [List.flatMap_congr (fun c _ => color_entries_flat bakTiming c)]
    rfl

theorem show_frame_structure_witness :
    (show_entries [{ r := 255, g := 255, b := 255 }] 6).length = 25
    ∧ (show_entries [{ r := 255, g := 255, b := 255 }] 6).getLast?
        = some (Entry.reset { level := false, duration := 50000 }) := by
  have h := show_frame_structure [{ r := 255, g := 255, b := 255 }] 6 (by decide)
  exact ⟨by simpa using h.1, h.2.1⟩

/-- C3: for every timing configuration and every channel byte, the encoder
emits exactly 8 pulse-pair entries for that byte; the entry at position `k`
encodes bit `7 - k` (most-significant-bit first) and is the configured
(high, low) bit=1 pair when that bit is 1 and the configured bit=0 pair when
it is 0; and per color the channel bytes are encoded in transmitted order
Green, Red, Blue. -/
theorem byte_pulse_pairs_spec (t : Timing) (byte : Nat) (c : RgbColor)
    (k : Nat) (hk : k < 8) :
    (byte_entries t byte).length = 8
    ∧ (byte_entries t byte)[k]?
        = some (if byte.testBit (7 - k)
            then Entry.bitPair { level := true, duration := t.t1h }
                   { level := false, duration := t.t1l }
            else Entry.bitPair { level := true, duration := t.t0h }
                   { level := false, duration := t.t0l })
    ∧ color_entries t c
        = byte_entries t c.g ++ byte_entries t c.r ++ byte_entries t c.b := by
  refine ⟨byte_entries_length t byte, ?_, ?_⟩
  · unfold byte_entries
    rw [List.getElem?_map, List.getElem?_range hk]
    simp only [Option.map_some']
    congr 1
    unfold bit_entry
    rw [Nat.shiftRight_eq_div_pow]
    cases hbit : byte.testBit (7 - k) <;>
      rw [Nat.testBit_to_div_mod] at hbit <;>
        simp at hbit <;>
          simp [hbit]
  · simp [color_entries]

theorem byte_pulse_pairs_spec_witness :
    (byte_entries bakTiming 165).length = 8
    ∧ (byte_entries bakTiming 165)[0]?
        = some (Entry.bitPair { level := true, duration := 800 }
            { level := false, duration := 450 })
    ∧ (byte_entries asyncTiming 64)[1]?
        = some (Entry.bitPair { level := true, duration := 900 }
            { level := false, duration := 350 }) := by
  have h1 := byte_pulse_pairs_spec bakTiming 165 { r := 0, g := 0, b := 0 } 0 (by decide)
  have h2 := byte_pulse_pairs_spec asyncTiming 64 { r := 0, g := 0, b := 0 } 1 (by decide)
  refine ⟨h1.1, ?_, ?_⟩
  · rw [h1.2.1]
    decide
  · rw [h2.2.1]
    decide

/-- C7 counterexample: in the `led_task` path the channel bytes that get
bit-split are the gamma outputs with no brightness multiplication. With the
gamma lookup instantiated to the identity and the firmware's configured
global brightness scale (the `LedStrip` default, 50), the byte stream
`led_task` splits for a full-white pixel is (255, 255, 255), while the claim
— gamma then brightness scaling before bit-splitting — would give
(50, 50, 50). -/
theorem gamma_brightness_counterexample :
    led_task_bytes (fun x => x) { r := 255, g := 255, b := 255 } = [255, 255, 255]
    ∧ (grb_bytes { r := 255, g := 255, b := 255 }).map
        (fun x => brightness_apply 50 ((fun y => y) x)) = [50, 50, 50]
    ∧ led_task_bytes (fun x => x) { r := 255, g := 255, b := 255 }
        ≠ (grb_bytes { r := 255, g := 255, b := 255 }).map
            (fun x => brightness_apply 50 ((fun y => y) x)) := by
  refine ⟨rfl, rfl, ?_⟩
  decide

/-- C7 amended: every channel byte is transformed before bit-splitting and
never after — the emitted pulses are a function of the transformed byte
stream alone. In the `LedStrip::update` path the stream handed to the
splitting adapter is exactly gamma followed by the global brightness scale,
applied to each raw GRB channel byte; in the `led_task` path the stream that
is bit-split is exactly the gamma of each raw GRB channel byte, with no
brightness scaling. -/
theorem gamma_brightness_before_split (g : Nat → Nat) (strip : LedStrip)
    (pixels : List RGB8) (t : Timing) :
    (strip.written g).flatMap grb_bytes
      = (strip.data.flatMap grb_bytes).map
          (fun x => brightness_apply strip.brightness (g x))
    ∧ pixels.flatMap (led_task_bytes g) = (pixels.flatMap grb_bytes).map g
    ∧ led_task_pairs g pixels
        = split_bytes asyncTiming ((pixels.flatMap grb_bytes).map g)
    ∧ split_bytes t ((strip.written g).flatMap grb_bytes)
        = split_bytes t ((strip.data.flatMap grb_bytes).map
            (fun x => brightness_apply strip.brightness (g x))) := by
  have h1 : (strip.written g).flatMap grb_bytes
      = (strip.data.flatMap grb_bytes).map
          (fun x => brightness_apply strip.brightness (g x)) := by
    unfold LedStrip.written
    rw [List.flatMap_map, List.map_flatMap]
    rfl
  have h2 : pixels.flatMap (led_task_bytes g) = (pixels.flatMap grb_bytes).map g := by
    rw [List.map_flatMap]
    rfl
  refine ⟨h1, h2, ?_, by rw [h1]⟩
  unfold split_bytes led_task_pairs
  rw [← h2, List.flatMap_assoc]

end IzzyMonitor
